import Mathlib

/-!
Shallow embedding of the `data-ingestion-bra` repository (Python / pandas)
and proofs of the specification claims about it.

Source files embedded:
- `src/app/utils/metadata.py`  (manifest generation, streaming MD5, line count)
- `src/app/utils/casting.py`   (column type coercion)
- `src/app/utils/validate.py`  (schema validation)

Modelling conventions:
- machine integers are `Nat`/`Int` with explicit `% 2^32` where MD5 needs it;
- Python floats are modelled as exact decimals `m / 10^k` in canonical form
  (the claims are about string-to-number transformation, not binary
  rounding), with `NaN` represented as the null value;
- file bytes are `List Nat` (each entry a byte value);
- the filesystem is an association list from path to file data; functions
  that write return the updated filesystem, functions that fail return the
  untouched filesystem together with an error, mirroring Python state plus
  exception semantics;
- wall-clock time (`datetime.datetime.now`) is passed in as an explicit
  `now` string parameter.
-/

namespace DataIngest

/-! ## MD5 (model of Python's `hashlib.md5` incremental interface)

`metadata.py` computes file hashes by feeding fixed-size chunks to an MD5
accumulator (`_md5`).  We model the accumulator faithfully: the state keeps
the compressed registers, the total absorbed length and a buffer of fewer
than 64 pending bytes; `update` compresses every complete 64-byte block and
buffers the remainder, exactly as the incremental interface behaves. -/

/-- 2^32, the MD5 word modulus. -/
def m32 : Nat := 4294967296

/-- Bitwise complement on 32-bit words. -/
def not32 (x : Nat) : Nat := x ^^^ 4294967295

/-- Left-rotation of a 32-bit word by `s` bits. -/
def rotl32 (x s : Nat) : Nat := ((x <<< s) ||| (x >>> (32 - s))) % m32

/-- The 64 MD5 sine-derived constants `K[i] = floor(2^32 * |sin(i+1)|)`. -/
def md5K : List Nat :=
  [3614090360, 3905402710, 606105819, 3250441966, 4118548399, 1200080426,
   2821735955, 4249261313, 1770035416, 2336552879, 4294925233, 2304563134,
   1804603682, 4254626195, 2792965006, 1236535329, 4129170786, 3225465664,
   643717713, 3921069994, 3593408605, 38016083, 3634488961, 3889429448,
   568446438, 3275163606, 4107603335, 1163531501, 2850285829, 4243563512,
   1735328473, 2368359562, 4294588738, 2272392833, 1839030562, 4259657740,
   2763975236, 1272893353, 4139469664, 3200236656, 681279174, 3936430074,
   3572445317, 76029189, 3654602809, 3873151461, 530742520, 3299628645,
   4096336452, 1126891415, 2878612391, 4237533241, 1700485571, 2399980690,
   4293915773, 2240044497, 1873313359, 4264355552, 2734768916, 1309151649,
   4149444226, 3174756917, 718787259, 3951481745]

/-- The 64 MD5 per-round left-rotation amounts. -/
def md5S : List Nat :=
  [7, 12, 17, 22, 7, 12, 17, 22, 7, 12, 17, 22, 7, 12, 17, 22,
   5, 9, 14, 20, 5, 9, 14, 20, 5, 9, 14, 20, 5, 9, 14, 20,
   4, 11, 16, 23, 4, 11, 16, 23, 4, 11, 16, 23, 4, 11, 16, 23,
   6, 10, 15, 21, 6, 10, 15, 21, 6, 10, 15, 21, 6, 10, 15, 21]

/-- The four 32-bit MD5 registers. -/
structure MD5Regs where
  a : Nat
  b : Nat
  c : Nat
  d : Nat
deriving DecidableEq

/-- Split a byte list into consecutive chunks of `n` bytes (the final chunk
may be shorter).  This is also the sequence of chunks `iter(lambda:
f.read(chunk_size), b"")` yields in `_md5`; `read(0)` returns the empty
bytes object at once, ending the iteration, hence the `n = 0` case. -/
def chunksOf (n : Nat) (l : List Nat) : List (List Nat) :=
  if l = [] then []
  else if n = 0 then []
  else l.take n :: chunksOf n (l.drop n)
termination_by l.length
decreasing_by
  rename_i hl hn
  cases l with
  | nil => exact absurd rfl hl
  | cons x xs =>
    simpa using Nat.sub_lt (Nat.succ_pos xs.length) (Nat.pos_of_ne_zero hn)

/-- Little-endian 32-bit word from (up to) four bytes. -/
def le4 : List Nat → Nat
  | [b0, b1, b2, b3] => b0 + 256 * b1 + 65536 * b2 + 16777216 * b3
  | _ => 0

/-- The MD5 compression function on one 64-byte block. -/
def md5Compress (r : MD5Regs) (block : List Nat) : MD5Regs :=
  let M := (chunksOf 4 block).map le4
  let t := (List.range 64).foldl
    (fun (s : MD5Regs) (i : Nat) =>
      let fg : Nat × Nat :=
        if i < 16 then ((s.b &&& s.c) ||| (not32 s.b &&& s.d), i)
        else if i < 32 then ((s.d &&& s.b) ||| (not32 s.d &&& s.c), (5 * i + 1) % 16)
        else if i < 48 then (s.b ^^^ s.c ^^^ s.d, (3 * i + 5) % 16)
        else (s.c ^^^ (s.b ||| not32 s.d), (7 * i) % 16)
      let f2 : Nat := (fg.1 + s.a + md5K.getD i 0 + M.getD fg.2 0) % m32
      ⟨s.d, (s.b + rotl32 f2 (md5S.getD i 0)) % m32, s.b, s.c⟩) r
  ⟨(r.a + t.a) % m32, (r.b + t.b) % m32, (r.c + t.c) % m32, (r.d + t.d) % m32⟩

/-- Incremental MD5 state: registers after every complete block absorbed so
far, total byte count, and the pending partial block. -/
structure MD5State where
  regs : MD5Regs
  len : Nat
  buf : List Nat
deriving DecidableEq

/-- Compress every complete leading 64-byte block of `data`, returning the
final registers and the remaining (shorter than 64 bytes) tail. -/
def processBlocks (r : MD5Regs) (data : List Nat) : MD5Regs × List Nat :=
  if h : 64 ≤ data.length then
    processBlocks (md5Compress r (data.take 64)) (data.drop 64)
  else (r, data)
termination_by data.length
decreasing_by
  simp only [List.length_drop]
  omega

/-- The MD5 initial register values. -/
def md5Init : MD5State :=
  ⟨⟨1732584193, 4023233417, 2562383102, 271733878⟩, 0, []⟩

/-- `hashlib` `update`: absorb more bytes, compressing complete blocks. -/
def md5Update (s : MD5State) (data : List Nat) : MD5State :=
  let p := processBlocks s.regs (s.buf ++ data)
  ⟨p.1, s.len + data.length, p.2⟩

/-- MD5 padding for a message of `len` bytes: `0x80`, zeros to 56 mod 64,
then the bit length as eight little-endian bytes. -/
def md5Pad (len : Nat) : List Nat :=
  128 :: List.replicate ((119 - len % 64) % 64) 0
    ++ (List.range 8).map (fun i => ((8 * len) >>> (8 * i)) % 256)

/-- Lowercase hexadecimal digit. -/
def hexDigit (n : Nat) : Char := "0123456789abcdef".toList.getD n '0'

/-- Two lowercase hex digits of one byte. -/
def byteHex (b : Nat) : List Char := [hexDigit (b / 16), hexDigit (b % 16)]

/-- `hashlib` `hexdigest`: pad, compress the final blocks, and print the
four registers as 16 little-endian bytes in lowercase hex. -/
def md5Hexdigest (s : MD5State) : String :=
  let final := (processBlocks s.regs (s.buf ++ md5Pad s.len)).1
  let bytes := [final.a, final.b, final.c, final.d].flatMap
    (fun w => (List.range 4).map (fun i => (w >>> (8 * i)) % 256))
  String.mk (bytes.flatMap byteHex)

/-- `metadata.py` `_md5`: stream the file in `chunkSize`-byte chunks, feed
each chunk to the MD5 accumulator, and return the hex digest. -/
def md5_file (chunkSize : Nat) (fileBytes : List Nat) : String :=
  md5Hexdigest ((chunksOf chunkSize fileBytes).foldl md5Update md5Init)

/-- One-pass MD5 of an entire byte string (the reference the spec compares
the chunked implementation against). -/
def md5Bytes (fileBytes : List Nat) : String :=
  md5Hexdigest (md5Update md5Init fileBytes)

/-! ## Values, columns and DataFrames

A pandas column is a dtype together with a list of cell values.  Cell
values are modelled by `Val`: missing data (`NaN` / `pd.NA` / `None`) is
`Val.null`; Python floats are exact decimals (see the header note). -/

/-- An exact decimal number `m / 10^k`.  Values are kept canonical (either
`k = 0`, or the mantissa is not divisible by ten), so equal values have
equal representations; every constructor below normalizes. -/
structure Dec where
  m : Int
  k : Nat
deriving DecidableEq

/-- Normalize `m / 10^k` by cancelling factors of ten. -/
def normDec : Int → Nat → Dec
  | m, 0 => ⟨m, 0⟩
  | m, k + 1 => if m % 10 = 0 then normDec (m / 10) k else ⟨m, k + 1⟩

/-- The canonical decimal of value `m / 10^k` for an integer scale `k`
(negative `k` multiplies out). -/
def decOfParts (m : Int) (k : Int) : Dec :=
  if k ≤ 0 then ⟨m * 10 ^ (-k).toNat, 0⟩ else normDec m k.toNat

/-- A cell value of a pandas column. -/
inductive Val where
  | null : Val
  | int : Int → Val
  | flt : Dec → Val
  | str : String → Val
deriving DecidableEq

/-- The pandas dtypes this repository manipulates: nullable `Int64`
extension integers, plain `int64`, `float64`, and `object`. -/
inductive Dtype where
  | int64N : Dtype
  | int64 : Dtype
  | float64 : Dtype
  | object : Dtype
deriving DecidableEq

/-- `str(dtype)` in pandas. -/
def dtypeName : Dtype → String
  | .int64N => "Int64"
  | .int64 => "int64"
  | .float64 => "float64"
  | .object => "object"

/-- `dtype.kind` in pandas (one character class code). -/
def dtypeKind : Dtype → Char
  | .int64N => 'i'
  | .int64 => 'i'
  | .float64 => 'f'
  | .object => 'O'

/-- `pd.api.types.is_numeric_dtype`. -/
def isNumericDtype : Dtype → Bool
  | .int64N => true
  | .int64 => true
  | .float64 => true
  | .object => false

/-- A pandas Series restricted to what the repository uses. -/
structure Col where
  dtype : Dtype
  vals : List Val
deriving DecidableEq

/-- A DataFrame: ordered association list of column name and column. -/
abbrev Df : Type := List (String × Col)

/-- `name in df.columns`. -/
def hasCol (df : Df) (name : String) : Bool :=
  df.any (fun p => p.1 = name)

/-- `df[name]` (first column with that name). -/
def getCol (df : Df) (name : String) : Option Col :=
  (df.find? (fun p => p.1 = name)).map (fun p => p.2)

/-- `df[name] = col`: replace every column of that name in place. -/
def setCol (df : Df) (name : String) (col : Col) : Df :=
  df.map (fun p => if p.1 = name then (p.1, col) else p)

/-! ## Numeric parsing (model of `pd.to_numeric(..., errors="coerce")`) -/

/-- Natural number denoted by a list of decimal digit characters. -/
def digitsVal (cs : List Char) : Nat :=
  cs.foldl (fun acc c => 10 * acc + (c.toNat - 48)) 0

/-- Parse a decimal string the way pandas' numeric parser accepts them:
optional surrounding whitespace, optional sign, integer digits, optional
fractional part, optional exponent; at least one digit overall.  Returns
the exact decimal value, or `none` when unparsable.  (Special floats such
as `inf`/`nan` are treated as unparsable here; no claim depends on them.) -/
def parseNumeric (s : String) : Option Dec :=
  let t0 := s.toList.dropWhile Char.isWhitespace
  let t := (t0.reverse.dropWhile Char.isWhitespace).reverse
  let sign : Int := if t.headD ' ' = '-' then -1 else 1
  let t1 := if t.headD ' ' = '-' ∨ t.headD ' ' = '+' then t.tail else t
  let ip := t1.takeWhile Char.isDigit
  let r1 := t1.dropWhile Char.isDigit
  let hasDot := r1.headD ' ' = '.'
  let r2 := if hasDot then r1.tail else r1
  let fp := r2.takeWhile Char.isDigit
  let r3 := r2.dropWhile Char.isDigit
  if ip.isEmpty ∧ fp.isEmpty then none
  else
    let mant : Int := sign * (digitsVal (ip ++ fp) : Int)
    match r3 with
    | [] => some (decOfParts mant (fp.length : Int))
    | e :: r4 =>
      if e = 'e' ∨ e = 'E' then
        let esign : Int := if r4.headD ' ' = '-' then -1 else 1
        let r5 := if r4.headD ' ' = '-' ∨ r4.headD ' ' = '+' then r4.tail else r4
        let ed := r5.takeWhile Char.isDigit
        if ed.isEmpty ∨ ¬(r5.dropWhile Char.isDigit).isEmpty then none
        else some (decOfParts mant ((fp.length : Int) - esign * (digitsVal ed : Int)))
      else none

/-- The numeric value `pd.to_numeric(..., errors="coerce")` sees in one
cell: numbers pass through, strings are parsed, missing data stays
missing (`none`). -/
def parseVal : Val → Option Dec
  | .null => none
  | .int i => some ⟨i, 0⟩
  | .flt q => some q
  | .str s => parseNumeric s

/-- `str(value)` as applied by `series.astype(str)`.  Missing data prints
as `"nan"`; a float value's Python `repr` is approximated by printing
whole decimals with a trailing `.0` and others in mantissa-exponent
notation (no claim depends on the float spelling). -/
def valToStr : Val → String
  | .null => "nan"
  | .int i => toString i
  | .flt q => if q.k = 0 then toString q.m ++ ".0" else toString q.m ++ "e-" ++ toString q.k
  | .str s => s

/-! ## Errors

The exception kinds the embedded code raises. -/

inductive PyErr where
  | fileNotFound : String → PyErr
  | schemaError : String → PyErr
  | typeError : String → PyErr
deriving DecidableEq

deriving instance DecidableEq for Except

/-! ## `utils/casting.py` -/

/-- `pd.to_numeric(series, errors="coerce")`: parse every cell; the result
dtype is plain `int64` when every cell parsed to a whole number and no
cell was missing or unparsable, otherwise `float64` (unparsable cells
coerced to `NaN`, i.e. `null`). -/
def pdToNumeric (c : Col) : Col :=
  let parsed := c.vals.map parseVal
  let anyNone := parsed.any Option.isNone
  let allInt := parsed.all (fun o => o.elim true (fun q => q.k = 0))
  if ¬anyNone ∧ allInt then
    ⟨.int64, parsed.map (fun o => o.elim Val.null (fun q => Val.int q.m))⟩
  else
    ⟨.float64, parsed.map (fun o => o.elim Val.null Val.flt)⟩

/-- `series.astype("Int64")` on a numeric series: missing stays missing,
whole numbers become nullable integers, and a non-integral float raises
`TypeError` (pandas refuses the unsafe cast). -/
def astypeInt64 (c : Col) : Except PyErr Col :=
  let ok2int : Val → Bool
    | .null => true
    | .int _ => true
    | .flt q => q.k = 0
    | .str _ => false
  if c.vals.all ok2int then
    .ok ⟨.int64N, c.vals.map (fun v => match v with
      | .null => Val.null
      | .int i => Val.int i
      | .flt q => Val.int q.m
      | .str _ => Val.null)⟩
  else .error (.typeError "cannot safely cast non-equivalent float64 to int64")

/-- `series.astype(float)` on a numeric series (every cell is a number or
missing after `to_numeric`; a string cell cannot occur there and is mapped
to `null` for totality). -/
def astypeFloat (c : Col) : Col :=
  ⟨.float64, c.vals.map (fun v => match v with
    | .null => Val.null
    | .int i => Val.flt ⟨i, 0⟩
    | .flt q => Val.flt q
    | .str _ => Val.null)⟩

/-- `casting.py` `to_int`:
`pd.to_numeric(series, errors="coerce").astype("Int64")`. -/
def to_int (c : Col) : Except PyErr Col :=
  astypeInt64 (pdToNumeric c)

/-- Python `str.strip()`: remove leading and trailing whitespace
(structurally, so that concrete instances compute). -/
def pyStrip (s : String) : String :=
  String.mk (((s.toList.dropWhile Char.isWhitespace).reverse.dropWhile
    Char.isWhitespace).reverse)

/-- One fuel-indexed pass of Python `str.replace`: at each position, if the
pattern starts here, emit the replacement and skip the pattern, otherwise
keep one character.  The fuel (initially the string length) only makes the
recursion structural; each step consumes at least one character. -/
def replaceFuel (old new : List Char) : Nat → List Char → List Char
  | 0, l => l
  | fuel + 1, l =>
    if l = [] then []
    else if old.isPrefixOf l then new ++ replaceFuel old new fuel (l.drop old.length)
    else l.headD ' ' :: replaceFuel old new fuel l.tail

/-- Python `str.replace(old, new)` for a nonempty pattern (the only uses
in this repository replace `"."` and `","`; Python's special empty-pattern
behaviour is not modelled). -/
def pyReplace (s old new : String) : String :=
  if old = "" then s
  else String.mk (replaceFuel old.toList new.toList s.toList.length s.toList)

/-- `series.astype(str)`. -/
def seriesAstypeStr (c : Col) : Col :=
  ⟨.object, c.vals.map (fun v => Val.str (valToStr v))⟩

/-- `.str.strip()` on an all-string series (Python `str.strip`). -/
def seriesStrip (c : Col) : Col :=
  ⟨.object, c.vals.map (fun v => match v with
    | .str s => Val.str (pyStrip s)
    | v => v)⟩

/-- `re.sub('^"|"$', '', s)` on the character list: the anchored
alternation removes one leading double quote (the `^"` branch can only
match at the very start) and one trailing double quote (the `"$` branch
can only match at the very end, and not a character already consumed by
the first branch). -/
def subAnchoredQuotesL (cs : List Char) : List Char :=
  let t := if cs.head? = some '"' then cs.tail else cs
  if t.getLast? = some '"' then t.dropLast else t

/-- `re.sub('^"|"$', '', s)` on a string. -/
def subAnchoredQuotes (s : String) : String :=
  String.mk (subAnchoredQuotesL s.toList)

/-- `.str.replace('^"|"$', '', regex=True)` on an all-string series. -/
def seriesStripQuotes (c : Col) : Col :=
  ⟨.object, c.vals.map (fun v => match v with
    | .str s => Val.str (subAnchoredQuotes s)
    | v => v)⟩

/-- `casting.py` `to_str`:
`series.astype(str).str.strip().str.replace('^"|"$', '', regex=True)`. -/
def to_str (c : Col) : Col :=
  seriesStripQuotes (seriesStrip (seriesAstypeStr c))

/-- `.str.replace(old, new, regex=False)` on an all-string series
(replaces every occurrence). -/
def seriesReplace (old new : String) (c : Col) : Col :=
  ⟨.object, c.vals.map (fun v => match v with
    | .str s => Val.str (pyReplace s old new)
    | v => v)⟩

/-- `casting.py` `to_float_pt`: numeric columns pass through
`to_numeric(...).astype(float)`; other columns go through
`astype(str)`, removal of `.`, `,` → `.`, `to_numeric(..., coerce)`,
`astype(float)`. -/
def to_float_pt (c : Col) : Col :=
  if isNumericDtype c.dtype then
    astypeFloat (pdToNumeric c)
  else
    astypeFloat (pdToNumeric (seriesReplace "," "." (seriesReplace "." "" (seriesAstypeStr c))))

/-- The `for col in integer_fields` loop of `apply_casts`: each declared
column present in the frame is reassigned to its integer cast; `to_int`
raising aborts the loop with the frame mutated up to that point. -/
def castIntFields (df : Df) : List String → Df × Except PyErr Unit
  | [] => (df, .ok ())
  | c :: rest =>
    match getCol df c with
    | none => castIntFields df rest
    | some col =>
      match to_int col with
      | .error e => (df, .error e)
      | .ok col2 => castIntFields (setCol df c col2) rest

/-- The `for col in string_fields` loop of `apply_casts`. -/
def castStrFields (df : Df) : List String → Df
  | [] => df
  | c :: rest =>
    match getCol df c with
    | none => castStrFields df rest
    | some col => castStrFields (setCol df c (to_str col)) rest

/-- The `for col in float_fields` loop of `apply_casts`. -/
def castFltFields (df : Df) : List String → Df
  | [] => df
  | c :: rest =>
    match getCol df c with
    | none => castFltFields df rest
    | some col => castFltFields (setCol df c (to_float_pt col)) rest

/-- The value-level effect of `apply_casts` on the DataFrame it is handed:
integer fields, then string fields, then float fields. -/
def applyCastsDf (df : Df) (intF strF fltF : List String) : Df × Except PyErr Unit :=
  match castIntFields df intF with
  | (df1, .error e) => (df1, .error e)
  | (df1, .ok ()) => (castFltFields (castStrFields df1 strF) fltF, .ok ())

/-- `casting.py` `apply_casts` with Python reference semantics made
explicit: the argument is a reference into a heap of DataFrame objects,
the column assignments mutate the referenced object, and the function
returns that same reference.  The pair is (heap after the call, returned
value or raised error). -/
def apply_casts (heap : List Df) (ref : Nat) (intF strF fltF : List String) :
    List Df × Except PyErr Nat :=
  match heap[ref]? with
  | none => (heap, .error (.typeError "argument is not a DataFrame"))
  | some df =>
    match applyCastsDf df intF strF fltF with
    | (df2, .error e) => (heap.set ref df2, .error e)
    | (df2, .ok ()) => (heap.set ref df2, .ok ref)

/-! ## `utils/validate.py` -/

/-- Python's string join: `sep` interspersed between the pieces. -/
def joinSep (sep : String) : List String → String
  | [] => ""
  | [x] => x
  | x :: xs => x ++ sep ++ joinSep sep xs

/-- Python `repr` of a list of strings, as interpolated into the
`ensure_required_columns` message. -/
def pyListRepr (l : List String) : String :=
  "[" ++ joinSep ", " (l.map (fun s => "'" ++ s ++ "'")) ++ "]"

/-- `validate.py` `ensure_required_columns`. -/
def ensure_required_columns (df : Df) (required : List String) : Except PyErr Unit :=
  let missing := required.filter (fun c => ¬hasCol df c)
  if missing.isEmpty then .ok ()
  else .error (.schemaError ("Colunas ausentes no DataFrame: " ++ pyListRepr missing))

/-- One `"<col> esperado <expected>, encontrado <actual>"` entry. -/
def mismatchEntry : String × String × String → String
  | (c, e, f) => c ++ " esperado " ++ e ++ ", encontrado " ++ f

/-- The `wrong` list `check_dtypes` accumulates: every declared, present
column whose post-cast dtype does not match its category, integer fields
first, then string fields, then float fields. -/
def wrongList (df : Df) (integer_fields string_fields float_fields : List String) :
    List (String × String × String) :=
  (integer_fields.filterMap (fun c => match getCol df c with
    | some col => if dtypeName col.dtype ≠ "Int64" then some (c, "Int64", dtypeName col.dtype) else none
    | none => none))
  ++ (string_fields.filterMap (fun c => match getCol df c with
    | some col => if dtypeKind col.dtype ≠ 'O' then some (c, "string(object)", dtypeName col.dtype) else none
    | none => none))
  ++ (float_fields.filterMap (fun c => match getCol df c with
    | some col => if dtypeKind col.dtype ≠ 'f' then some (c, "float", dtypeName col.dtype) else none
    | none => none))

/-- `validate.py` `check_dtypes`: raise a single `SchemaError` joining all
the collected mismatch entries when any exist. -/
def check_dtypes (df : Df) (integer_fields string_fields float_fields : List String) :
    Except PyErr Unit :=
  let wrong := wrongList df integer_fields string_fields float_fields
  if wrong.isEmpty then .ok ()
  else .error (.schemaError ("Tipos incorretos após cast: "
    ++ joinSep "; " (wrong.map mismatchEntry)))

/-- Specification-side reading of one dtype mismatch: column `c`, declared
in one of the three category lists and present in the dataset, whose
post-cast dtype `act` does not match the category's expected type `expd`. -/
def MismatchedAs (df : Df) (integer_fields string_fields float_fields : List String)
    (c expd act : String) : Prop :=
  (c ∈ integer_fields ∧ expd = "Int64" ∧
    ∃ col, getCol df c = some col ∧ act = dtypeName col.dtype ∧ dtypeName col.dtype ≠ "Int64")
  ∨ (c ∈ string_fields ∧ expd = "string(object)" ∧
    ∃ col, getCol df c = some col ∧ act = dtypeName col.dtype ∧ dtypeKind col.dtype ≠ 'O')
  ∨ (c ∈ float_fields ∧ expd = "float" ∧
    ∃ col, getCol df c = some col ∧ act = dtypeName col.dtype ∧ dtypeKind col.dtype ≠ 'f')

/-! ## `utils/metadata.py`

The filesystem maps a path either to raw bytes or to a written manifest
document.  JSON serialization of the manifest (`json.dump`) is abstracted
to storing the document value itself: no claim concerns the concrete JSON
byte encoding, only which fields the manifest holds and when it is
written at all. -/

/-- `metadata.py` `CoreInfo`. -/
structure CoreInfo where
  arquivo : String
  diretorio : String
  tamanho_bytes : Nat
  hash_md5 : String
  gerado_em : String
deriving DecidableEq

/-- `metadata.py` `DatasetInfo` (all fields optional, default `None`). -/
structure DatasetInfo where
  dataset : Option String := none
  origem : Option String := none
  endpoint : Option String := none
  delimitador : Option String := none
  encoding : Option String := none
  partition_key : Option String := none
  partition_value : Option String := none
  run_id : Option String := none
  producer : Option String := none
deriving DecidableEq

/-- `metadata.py` `SchemaStats`.  `linhas` is an `Int` so that claims about
its sign are expressible. -/
structure SchemaStats where
  colunas : List String
  dtypes : Option (List (String × String)) := none
  linhas : Option Int := none
  nulos : Option (List (String × Nat)) := none
  preview : Option (List (List (String × Val))) := none
deriving DecidableEq

/-- The manifest document `{"core": ..., "dataset": ..., "schema_stats":
..., "extra": ...}`. -/
structure Manifest where
  core : CoreInfo
  dataset : DatasetInfo
  schema_stats : SchemaStats
  extra : Option (List (String × String)) := none
deriving DecidableEq

/-- Contents of one file on disk. -/
inductive FileData where
  | bytes : List Nat → FileData
  | doc : Manifest → FileData
deriving DecidableEq

/-- The filesystem: paths to file contents. -/
abbrev FS : Type := List (String × FileData)

/-- Look a path up. -/
def fileAt (fs : FS) (path : String) : Option FileData :=
  (fs.find? (fun p => p.1 = path)).map (fun p => p.2)

/-- `os.path.exists`. -/
def pathExists (fs : FS) (path : String) : Bool :=
  (fileAt fs path).isSome

/-- Write (create or overwrite) a file: the new entry is prepended and
shadows any older entry for the same path, since `fileAt` reads the first
match.  Untouched paths keep their contents. -/
def writeFile (fs : FS) (path : String) (d : FileData) : FS :=
  (path, d) :: fs

/-- The raw bytes of a file (a manifest document has none). -/
def fileDataBytes : FileData → List Nat
  | .bytes b => b
  | .doc _ => []

/-- `os.path.basename`. -/
def basename (path : String) : String :=
  ((path.splitOn "/").getLast?).getD ""

/-- `os.path.dirname`. -/
def dirname (path : String) : String :=
  joinSep "/" (path.splitOn "/").dropLast

/-- Consume one line of a binary file: everything up to and including the
first newline byte, or the whole rest when no newline remains. -/
def dropLine (b : List Nat) : List Nat :=
  (b.dropWhile (fun x => x ≠ 10)).drop 1

/-- Fuel-indexed line counting; the fuel (initially the byte count) only
makes the recursion structural, each line consuming at least one byte. -/
def countFileLinesFuel : Nat → List Nat → Nat
  | 0, _ => 0
  | fuel + 1, b => if b = [] then 0 else 1 + countFileLinesFuel fuel (dropLine b)

/-- `metadata.py` `_count_file_lines`: iterate the binary file line by
line (`for _ in f`), counting one per yielded line; a trailing fragment
with no final newline is still one line. -/
def countFileLines (b : List Nat) : Nat :=
  countFileLinesFuel b.length b

/-- The pandas dtype names of every column (`_pandas_dtypes`). -/
def pandasDtypes (df : Df) : List (String × String) :=
  df.map (fun p => (p.1, dtypeName p.2.dtype))

/-- Per-column missing-value counts (`_null_counts`). -/
def nullCounts (df : Df) : List (String × Nat) :=
  df.map (fun p => (p.1, p.2.vals.count Val.null))

/-- `len(df)`: the row count (length of the columns). -/
def dfLen (df : Df) : Nat :=
  match df with
  | [] => 0
  | (_, c) :: _ => c.vals.length

/-- Row `i` of the frame as a record (`to_dict(orient="records")`). -/
def dfRow (df : Df) (i : Nat) : List (String × Val) :=
  df.map (fun p => (p.1, p.2.vals.getD i Val.null))

/-- `_head_preview df n`: the first `min n len` rows as records. -/
def headPreview (df : Df) (n : Nat) : List (List (String × Val)) :=
  (List.range (min n (dfLen df))).map (dfRow df)

/-- `metadata.py` `write_metadata_from_df`: refuse when `path` does not
exist on disk, otherwise build the manifest from the file on disk and the
in-memory frame and write it to `path + ".manifest.json"`, returning that
output path.  The returned filesystem is the state after the call: on the
not-found error it is the input filesystem, untouched. -/
def write_metadata_from_df (fs : FS) (df : Df) (path : String) (meta : DatasetInfo)
    (now : String) (include_dtypes include_nulls include_preview : Bool)
    (extra : Option (List (String × String))) : FS × Except PyErr String :=
  match fileAt fs path with
  | none => (fs, .error (.fileNotFound ("Arquivo não encontrado para manifest: " ++ path)))
  | some fd =>
    let b := fileDataBytes fd
    let core : CoreInfo :=
      ⟨basename path, dirname path, b.length, md5_file 1048576 b, now⟩
    let stats : SchemaStats :=
      ⟨df.map (fun p => p.1),
       if include_dtypes then some (pandasDtypes df) else none,
       some (dfLen df : Int),
       if include_nulls then some (nullCounts df) else none,
       if include_preview then some (headPreview df 3) else none⟩
    let out := path ++ ".manifest.json"
    (writeFile fs out (.doc ⟨core, meta, stats, extra⟩), .ok out)

/-- Decode bytes to characters for header inference (byte-to-char; the
config files use ASCII delimiters and headers, for which this matches
`utf-8` decoding). -/
def decodeBytes (b : List Nat) : String :=
  String.mk (b.map Char.ofNat)

/-- Python `str.strip("\n\r")`: remove every leading and trailing newline
or carriage-return character. -/
def stripNlCr (s : String) : String :=
  let isNl := fun c => c = '\n' ∨ c = '\r'
  String.mk (((s.toList.dropWhile isNl).reverse.dropWhile isNl).reverse)

/-- `f.readline()` on the decoded file, then `.strip("\n\r")` and a
delimiter split with `.strip()` on each piece, as in
`write_manifest_from_file`'s header inference. -/
def inferColsFromHeader (b : List Nat) (delim : String) : List String :=
  let firstLine := decodeBytes (b.takeWhile (fun x => x ≠ 10) ++ (if (10 : Nat) ∈ b then [10] else []))
  ((stripNlCr firstLine).splitOn delim).map String.trim

/-- `metadata.py` `write_manifest_from_file`: same not-found precondition
and manifest shape as `write_metadata_from_df`, but built from the raw
file alone — columns inferred from the first line when the header flag and
a truthy delimiter are supplied, and the row count obtained by streaming
line counting, decremented by one when `header` is set and the raw count
is positive. -/
def write_manifest_from_file (fs : FS) (path : String) (meta : DatasetInfo)
    (now : String) (header infer_columns_from_header line_count : Bool)
    (extra : Option (List (String × String))) : FS × Except PyErr String :=
  match fileAt fs path with
  | none => (fs, .error (.fileNotFound ("Arquivo não encontrado para manifest: " ++ path)))
  | some fd =>
    let b := fileDataBytes fd
    let core : CoreInfo :=
      ⟨basename path, dirname path, b.length, md5_file 1048576 b, now⟩
    let cols : List String :=
      if infer_columns_from_header ∧ header ∧ (meta.delimitador.getD "") ≠ "" then
        inferColsFromHeader b (meta.delimitador.getD "")
      else []
    let rows : Option Int :=
      if line_count then
        let n := countFileLines b
        some (if header ∧ n ≠ 0 ∧ 0 < n then (n : Int) - 1 else (n : Int))
      else none
    let stats : SchemaStats := ⟨cols, none, rows, none, none⟩
    let out := path ++ ".manifest.json"
    (writeFile fs out (.doc ⟨core, meta, stats, extra⟩), .ok out)

/-- The `schema_stats.linhas` field of the manifest document stored at
`p`, if a manifest document is stored there. -/
def manifestLinhasAt (fs : FS) (p : String) : Option (Option Int) :=
  match fileAt fs p with
  | some (.doc m) => some m.schema_stats.linhas
  | _ => none

/-- The `core.hash_md5` field of the manifest document stored at `p`, if a
manifest document is stored there. -/
def manifestHashAt (fs : FS) (p : String) : Option String :=
  match fileAt fs p with
  | some (.doc m) => some m.core.hash_md5
  | _ => none

/-! ## Lemmas: streaming MD5 agrees with one-pass MD5 -/

lemma processBlocks_of_le (r : MD5Regs) (l : List Nat) (h : 64 ≤ l.length) :
    processBlocks r l = processBlocks (md5Compress r (l.take 64)) (l.drop 64) := by
  rw [processBlocks]
  simp [h]

lemma processBlocks_of_lt (r : MD5Regs) (l : List Nat) (h : l.length < 64) :
    processBlocks r l = (r, l) := by
  rw [processBlocks]
  simp [Nat.not_le.mpr h]

lemma processBlocks_append (y : List Nat) :
    ∀ (n : Nat) (x : List Nat), x.length ≤ n → ∀ (r : MD5Regs),
      processBlocks r (x ++ y) =
        processBlocks (processBlocks r x).1 ((processBlocks r x).2 ++ y) := by
  intro n
  induction n with
  | zero =>
    intro x hx r
    have hx0 : x = [] := List.length_eq_zero.mp (Nat.le_zero.mp hx)
    subst hx0
    rw [processBlocks_of_lt r [] (by simp)]
  | succ n ih =>
    intro x hx r
    by_cases h64 : 64 ≤ x.length
    · have hxy : 64 ≤ (x ++ y).length := by
        simp only [List.length_append]; omega
      rw [processBlocks_of_le r (x ++ y) hxy, processBlocks_of_le r x h64]
      have htake : (x ++ y).take 64 = x.take 64 := by
        rw [List.take_append_eq_append_take, Nat.sub_eq_zero_of_le h64]
        simp
      have hdrop : (x ++ y).drop 64 = x.drop 64 ++ y := by
        rw [List.drop_append_eq_append_drop, Nat.sub_eq_zero_of_le h64]
        simp
      rw [htake, hdrop]
      exact ih (x.drop 64) (by simp only [List.length_drop]; omega) _
    · rw [processBlocks_of_lt r x (Nat.not_le.mp h64)]

lemma md5Update_append (s : MD5State) (a b : List Nat) :
    md5Update (md5Update s a) b = md5Update s (a ++ b) := by
  simp only [md5Update]
  rw [← List.append_assoc,
    processBlocks_append b (s.buf ++ a).length (s.buf ++ a) le_rfl s.regs]
  simp [Nat.add_assoc]

lemma foldl_md5Update (cs : List (List Nat)) :
    ∀ (s : MD5State) (d : List Nat),
      cs.foldl md5Update (md5Update s d) = md5Update s (d ++ cs.flatten) := by
  induction cs with
  | nil => intro s d; simp
  | cons c cs ih =>
    intro s d
    simp only [List.foldl_cons, List.flatten_cons, md5Update_append, ih,
      List.append_assoc]

lemma md5Update_nil_init : md5Update md5Init [] = md5Init := by
  simp only [md5Update, md5Init]
  rw [processBlocks_of_lt _ _ (by simp)]
  simp

lemma chunksOf_join (n : Nat) (hn : n ≠ 0) :
    ∀ (m : Nat) (l : List Nat), l.length ≤ m → (chunksOf n l).flatten = l := by
  intro m
  induction m with
  | zero =>
    intro l hl
    have : l = [] := List.length_eq_zero.mp (Nat.le_zero.mp hl)
    subst this
    rw [chunksOf]
    simp
  | succ m ih =>
    intro l hl
    rw [chunksOf]
    by_cases h0 : l = []
    · simp [h0]
    · simp only [h0, if_false, hn, List.flatten_cons]
      rw [ih (l.drop n) (by
        simp only [List.length_drop]
        have : 0 < l.length := List.length_pos.mpr h0
        omega)]
      exact List.take_append_drop n l

/-- The chunked streaming `_md5` computes the byte-for-byte MD5 of the
whole input, for every positive chunk size. -/
lemma md5_file_eq_md5Bytes (chunkSize : Nat) (h : 0 < chunkSize) (b : List Nat) :
    md5_file chunkSize b = md5Bytes b := by
  unfold md5_file md5Bytes
  rw [← md5Update_nil_init, foldl_md5Update, md5Update_nil_init]
  rw [chunksOf_join chunkSize (Nat.pos_iff_ne_zero.mp h) b.length b le_rfl]
  simp

/-! ## Lemmas: line counting -/

lemma countFileLinesFuel_nil (fuel : Nat) : countFileLinesFuel fuel [] = 0 := by
  cases fuel <;> rfl

/-- Byte-wise newline counting with enough fuel: the number of lines a
binary file iterator yields equals the number of newline bytes, plus one
more when the file is nonempty and its last byte is not a newline. -/
lemma countFileLinesFuel_eq_spec :
    ∀ (n : Nat) (b : List Nat), b.length ≤ n →
      countFileLinesFuel n b =
        b.count 10 + (if b ≠ [] ∧ b.getLast? ≠ some 10 then 1 else 0) := by
  intro n
  induction n with
  | zero =>
    intro b hb
    have hb0 : b = [] := List.length_eq_zero.mp (Nat.le_zero.mp hb)
    subst hb0
    simp [countFileLinesFuel]
  | succ n ih =>
    intro b hb
    by_cases hbnil : b = []
    · subst hbnil
      simp [countFileLinesFuel]
    · rw [countFileLinesFuel]
      simp only [hbnil, if_false]
      have hbtw : b.takeWhile (fun x => x ≠ 10) ++ b.dropWhile (fun x => x ≠ 10) = b :=
        List.takeWhile_append_dropWhile _ b
      have ht10 : (10 : Nat) ∉ b.takeWhile (fun x => x ≠ 10) := by
        intro hm
        have := List.mem_takeWhile_imp hm
        simp at this
      cases hw : b.dropWhile (fun x => x ≠ 10) with
      | nil =>
        have hbt : b = b.takeWhile (fun x => x ≠ 10) := by
          conv_lhs => rw [← hbtw]
          rw [hw, List.append_nil]
        have hcount : b.count 10 = 0 := by
          rw [hbt]; exact List.count_eq_zero_of_not_mem ht10
        have hlast : b.getLast? ≠ some 10 := by
          intro hsome
          exact ht10 (hbt ▸ List.mem_of_getLast?_eq_some hsome)
        have hdl : dropLine b = [] := by
          unfold dropLine
          rw [hw]
          rfl
        rw [hdl, countFileLinesFuel_nil]
        simp [hcount, hbnil, hlast]
      | cons y u =>
        have hy : y = 10 := by
          have h0 := List.head?_dropWhile_not (fun x => x ≠ 10) b
          rw [hw] at h0
          simpa using h0
        subst hy
        have hdl : dropLine b = u := by
          unfold dropLine
          rw [hw]
          rfl
        have hlenu : u.length ≤ n := by
          have : (b.takeWhile (fun x => x ≠ 10)).length + (10 :: u).length = b.length := by
            rw [← hw, ← List.length_append, hbtw]
          simp only [List.length_cons] at this
          omega
        rw [hdl, ih u hlenu]
        have hbsplit : b = (b.takeWhile (fun x => x ≠ 10) ++ [10]) ++ u := by
          conv_lhs => rw [← hbtw, hw]
          simp
        have hcount : b.count 10 = u.count 10 + 1 := by
          conv_lhs => rw [hbsplit]
          rw [List.count_append, List.count_append,
            List.count_eq_zero_of_not_mem ht10]
          simp [Nat.add_comm]
        cases hu : u with
        | nil =>
          subst hu
          have hlast : b.getLast? = some 10 := by
            rw [hbsplit, List.append_nil]
            exact List.getLast?_concat _
          rw [hcount]
          simp [hlast]
        | cons z w =>
          rw [← hu]
          have hune : u ≠ [] := by simp [hu]
          have hlast : b.getLast? = u.getLast? := by
            rw [hbsplit, List.getLast?_append]
            cases hul : u.getLast? with
            | none =>
              exact absurd (List.getLast?_eq_none_iff.mp hul) hune
            | some a => simp
          rw [hcount, hlast]
          by_cases hgl : u.getLast? = some 10
          · rw [if_neg (fun hc => hc.2 hgl), if_neg (fun hc => hc.2 hgl)]
            omega
          · rw [if_pos ⟨hune, hgl⟩, if_pos ⟨hbnil, hgl⟩]
            omega

/-- `_count_file_lines` computes the byte-wise newline count, including
the trailing fragment with no final newline. -/
lemma countFileLines_eq_spec (b : List Nat) :
    countFileLines b =
      b.count 10 + (if b ≠ [] ∧ b.getLast? ≠ some 10 then 1 else 0) :=
  countFileLinesFuel_eq_spec b.length b le_rfl

/-! ## Lemmas: casting -/

lemma dec_eta_of_k_zero (q : Dec) (h : q.k = 0) : (⟨q.m, 0⟩ : Dec) = q := by
  cases q with
  | mk m k =>
    simp only at h
    rw [h]

/-- `to_numeric(...).astype(float)` turns every cell into its parsed
rational (as a float) or null, regardless of which dtype branch
`to_numeric` took. -/
lemma astypeFloat_pdToNumeric (c : Col) :
    astypeFloat (pdToNumeric c) =
      ⟨.float64, c.vals.map (fun v => (parseVal v).elim Val.null Val.flt)⟩ := by
  rw [pdToNumeric]
  by_cases hcond : ¬((c.vals.map parseVal).any Option.isNone = true) ∧
      (c.vals.map parseVal).all (fun o => o.elim true (fun q => q.k = 0)) = true
  · rw [if_pos hcond]
    simp only [astypeFloat, List.map_map]
    apply congrArg
    apply List.map_congr_left
    intro v hv
    have hall := (List.all_eq_true.mp hcond.2) (parseVal v)
      (List.mem_map_of_mem parseVal hv)
    cases hpv : parseVal v with
    | none => simp [hpv]
    | some q =>
      rw [hpv] at hall
      simp only [Option.elim_some, decide_eq_true_eq] at hall
      simp [hpv, Function.comp, dec_eta_of_k_zero q hall]
  · rw [if_neg hcond]
    simp only [astypeFloat, List.map_map]
    apply congrArg
    apply List.map_congr_left
    intro v _
    cases hpv : parseVal v <;> simp [hpv]

/-- When every cell parses to a whole number or fails to parse, `to_int`
succeeds and yields exactly the parsed integers with nulls for the
unparsable cells. -/
lemma to_int_eq_of_intlike (c : Col)
    (h : c.vals.all (fun v => (parseVal v).all (fun q => q.k = 0)) = true) :
    to_int c = .ok ⟨.int64N,
      c.vals.map (fun v => (parseVal v).elim Val.null (fun q => Val.int q.m))⟩ := by
  have hmem : ∀ v ∈ c.vals, (parseVal v).all (fun q => q.k = 0) = true :=
    fun v hv => List.all_eq_true.mp h v hv
  rw [to_int, pdToNumeric]
  by_cases hcond : ¬((c.vals.map parseVal).any Option.isNone = true) ∧
      (c.vals.map parseVal).all (fun o => o.elim true (fun q => q.k = 0)) = true
  · rw [if_pos hcond]
    rw [astypeInt64]
    rw [if_pos (by
      rw [List.all_eq_true]
      intro v hv
      obtain ⟨o, ho, rfl⟩ := List.mem_map.mp hv
      cases o <;> simp)]
    apply congrArg
    apply congrArg
    simp only [List.map_map]
    apply List.map_congr_left
    intro v _
    cases hpv : parseVal v <;> simp [hpv, Function.comp]
  · rw [if_neg hcond]
    rw [astypeInt64]
    rw [if_pos (by
      rw [List.all_eq_true]
      intro v hv
      obtain ⟨o, ho, rfl⟩ := List.mem_map.mp hv
      obtain ⟨w, hw, rfl⟩ := List.mem_map.mp ho
      have hm := hmem w hw
      cases hpv : parseVal w with
      | none => simp [hpv]
      | some q =>
        rw [hpv] at hm
        simp only [Option.all_some] at hm
        simpa [hpv] using hm)]
    apply congrArg
    apply congrArg
    simp only [List.map_map]
    apply List.map_congr_left
    intro v _
    cases hpv : parseVal v <;> simp [hpv, Function.comp]

/-- Whenever `to_int` succeeds, the result is a nullable-integer column
every cell of which is null or an integer. -/
lemma to_int_ok_shape (c c2 : Col) (h : to_int c = .ok c2) :
    c2.dtype = .int64N ∧ ∀ v ∈ c2.vals, v = .null ∨ ∃ i : Int, v = .int i := by
  rw [to_int, astypeInt64] at h
  by_cases hall : (pdToNumeric c).vals.all (fun v => match v with
      | .null => true
      | .int _ => true
      | .flt q => decide (q.k = 0)
      | .str _ => false) = true
  · rw [if_pos hall] at h
    have h2 := (Except.ok.injEq _ _).mp h.symm
    subst h2
    refine ⟨rfl, ?_⟩
    intro v hv
    obtain ⟨w, _, hw⟩ := List.mem_map.mp hv
    cases w with
    | null => exact Or.inl hw.symm
    | int i => exact Or.inr ⟨i, hw.symm⟩
    | flt q => exact Or.inr ⟨q.m, hw.symm⟩
    | str s => exact Or.inl hw.symm
  · rw [if_neg hall] at h
    exact absurd h (by simp)

/-- `to_str` is the per-cell pipeline: print, strip whitespace, strip one
layer of anchored quotes. -/
lemma to_str_eq (c : Col) :
    to_str c = ⟨.object,
      c.vals.map (fun v => Val.str (subAnchoredQuotes (pyStrip (valToStr v))))⟩ := by
  rw [to_str, seriesAstypeStr, seriesStrip, seriesStripQuotes]
  simp [List.map_map, Function.comp]

/-- `to_float_pt` on a non-numeric column is the per-cell pipeline: print,
drop `.`, turn `,` into `.`, parse, null the failures. -/
lemma to_float_pt_object (c : Col) (h : isNumericDtype c.dtype = false) :
    to_float_pt c = ⟨.float64,
      c.vals.map (fun v =>
        (parseNumeric (pyReplace (pyReplace (valToStr v) "." "") "," ".")).elim
          Val.null Val.flt)⟩ := by
  rw [to_float_pt, if_neg (by simp [h])]
  rw [seriesAstypeStr, seriesReplace, seriesReplace]
  simp only [List.map_map]
  rw [astypeFloat_pdToNumeric]
  apply congrArg
  simp [List.map_map, Function.comp, parseVal]

/-- `to_float_pt` on a numeric column coerces each cell to its float
value, keeping nulls. -/
lemma to_float_pt_numeric (c : Col) (h : isNumericDtype c.dtype = true) :
    to_float_pt c = ⟨.float64,
      c.vals.map (fun v => (parseVal v).elim Val.null Val.flt)⟩ := by
  rw [to_float_pt, if_pos (by simp [h])]
  exact astypeFloat_pdToNumeric c

/-! ## Lemmas: quote stripping and joining -/

lemma mk_toList (s : String) : String.mk s.toList = s := rfl

lemma subAnchoredQuotesL_wrap (cs : List Char) :
    subAnchoredQuotesL ('"' :: (cs ++ ['"'])) = cs := by
  rw [subAnchoredQuotesL]
  simp [List.getLast?_concat]

/-- Wrapping any string in one pair of double quotes and stripping gives
the string back. -/
lemma subAnchoredQuotes_wrap (s : String) :
    subAnchoredQuotes ("\"" ++ s ++ "\"") = s := by
  rw [subAnchoredQuotes]
  have h : ("\"" ++ s ++ "\"").toList = '"' :: (s.toList ++ ['"']) := by
    simp [String.toList, String.data_append]
  rw [h, subAnchoredQuotesL_wrap, mk_toList]

/-- A string that neither starts nor ends with a double quote is returned
unchanged. -/
lemma subAnchoredQuotesL_id (cs : List Char)
    (h1 : cs.head? ≠ some '"') (h2 : cs.getLast? ≠ some '"') :
    subAnchoredQuotesL cs = cs := by
  rw [subAnchoredQuotesL]
  simp only [if_neg h1, if_neg h2]

/-! ## Lemmas: validation and the filesystem -/

lemma fileAt_writeFile (fs : FS) (p : String) (d : FileData) :
    fileAt (writeFile fs p d) p = some d := by
  simp [fileAt, writeFile]

lemma hasCol_of_getCol (df : Df) (c : String) (col : Col)
    (h : getCol df c = some col) : hasCol df c = true := by
  rw [getCol] at h
  cases hf : df.find? (fun q => q.1 = c) with
  | none => rw [hf] at h; exact absurd h (by simp)
  | some q =>
    rw [hasCol, List.any_eq_true]
    refine ⟨q, List.mem_of_find?_eq_some hf, ?_⟩
    have hpq := List.find?_some hf
    simpa using hpq

lemma getCol_eq_none (df : Df) (c : String) (h : hasCol df c = false) :
    getCol df c = none := by
  rw [getCol, Option.map_eq_none', List.find?_eq_none]
  intro q hq hqc
  have hany : df.any (fun q => q.1 = c) = true := List.any_eq_true.mpr ⟨q, hq, hqc⟩
  rw [hasCol] at h
  rw [h] at hany
  exact absurd hany (by simp)

lemma mem_wrongList_iff (df : Df) (i s f : List String) (c expd act : String) :
    (c, expd, act) ∈ wrongList df i s f ↔ MismatchedAs df i s f c expd act := by
  rw [wrongList, MismatchedAs]
  simp only [List.mem_append, List.mem_filterMap]
  constructor
  · rintro ((⟨x, hx, hgx⟩ | ⟨x, hx, hgx⟩) | ⟨x, hx, hgx⟩)
    · cases hcolx : getCol df x with
      | none => simp only [hcolx] at hgx; exact absurd hgx (by simp)
      | some col =>
        simp only [hcolx] at hgx
        by_cases hb : dtypeName col.dtype ≠ "Int64"
        · rw [if_pos hb] at hgx
          simp only [Option.some.injEq, Prod.mk.injEq] at hgx
          exact Or.inl ⟨hgx.1 ▸ hx, hgx.2.1.symm, col, hgx.1 ▸ hcolx, hgx.2.2.symm, hb⟩
        · rw [if_neg hb] at hgx; exact absurd hgx (by simp)
    · cases hcolx : getCol df x with
      | none => simp only [hcolx] at hgx; exact absurd hgx (by simp)
      | some col =>
        simp only [hcolx] at hgx
        by_cases hb : dtypeKind col.dtype ≠ 'O'
        · rw [if_pos hb] at hgx
          simp only [Option.some.injEq, Prod.mk.injEq] at hgx
          exact Or.inr (Or.inl ⟨hgx.1 ▸ hx, hgx.2.1.symm, col, hgx.1 ▸ hcolx, hgx.2.2.symm, hb⟩)
        · rw [if_neg hb] at hgx; exact absurd hgx (by simp)
    · cases hcolx : getCol df x with
      | none => simp only [hcolx] at hgx; exact absurd hgx (by simp)
      | some col =>
        simp only [hcolx] at hgx
        by_cases hb : dtypeKind col.dtype ≠ 'f'
        · rw [if_pos hb] at hgx
          simp only [Option.some.injEq, Prod.mk.injEq] at hgx
          exact Or.inr (Or.inr ⟨hgx.1 ▸ hx, hgx.2.1.symm, col, hgx.1 ▸ hcolx, hgx.2.2.symm, hb⟩)
        · rw [if_neg hb] at hgx; exact absurd hgx (by simp)
  · rintro (⟨hc, hexp, col, hcol, hact, hb⟩ | ⟨hc, hexp, col, hcol, hact, hb⟩ |
      ⟨hc, hexp, col, hcol, hact, hb⟩)
    · refine Or.inl (Or.inl ⟨c, hc, ?_⟩)
      simp only [hcol]
      rw [if_pos hb, hexp, hact]
    · refine Or.inl (Or.inr ⟨c, hc, ?_⟩)
      simp only [hcol]
      rw [if_pos hb, hexp, hact]
    · refine Or.inr ⟨c, hc, ?_⟩
      simp only [hcol]
      rw [if_pos hb, hexp, hact]

lemma wrongList_nil_of_absent (df : Df) (i s f : List String)
    (h : ∀ c ∈ i ++ s ++ f, hasCol df c = false) :
    wrongList df i s f = [] := by
  have hi : ∀ c ∈ i, getCol df c = none :=
    fun c hc => getCol_eq_none df c (h c (by simp [hc]))
  have hs : ∀ c ∈ s, getCol df c = none :=
    fun c hc => getCol_eq_none df c (h c (by simp [hc]))
  have hf2 : ∀ c ∈ f, getCol df c = none :=
    fun c hc => getCol_eq_none df c (h c (by simp [hc]))
  rw [wrongList]
  rw [List.filterMap_eq_nil_iff.mpr (fun c hc => by rw [hi c hc]),
    List.filterMap_eq_nil_iff.mpr (fun c hc => by rw [hs c hc]),
    List.filterMap_eq_nil_iff.mpr (fun c hc => by rw [hf2 c hc])]
  rfl

/-- Every member of a joined list occurs verbatim inside the join. -/
lemma joinSep_mem_infix (sep : String) :
    ∀ (L : List String) (x : String), x ∈ L →
      ∃ pre post, joinSep sep L = pre ++ x ++ post := by
  intro L
  induction L with
  | nil => intro x hx; exact absurd hx (List.not_mem_nil x)
  | cons a t ih =>
    intro x hx
    cases t with
    | nil =>
      rw [List.mem_singleton] at hx
      subst hx
      exact ⟨"", "", by simp [joinSep]⟩
    | cons b t2 =>
      have hj : joinSep sep (a :: b :: t2) = a ++ sep ++ joinSep sep (b :: t2) := rfl
      rcases List.mem_cons.mp hx with hxa | hxt
      · subst hxa
        exact ⟨"", sep ++ joinSep sep (b :: t2), by
          rw [hj]
          simp [String.append_assoc]⟩
      · obtain ⟨pre, post, hpp⟩ := ih x hxt
        exact ⟨a ++ sep ++ pre, post, by
          rw [hj, hpp]
          simp [String.append_assoc]⟩

/-! ## Claim theorems -/

/-- Claim C1: for every file, the MD5 hash recorded in the manifest's
`core.hash_md5` — computed by `_md5` streaming the file in fixed-size
chunks and updating an MD5 accumulator — equals the MD5 of the file's
entire byte content computed in one pass: the chunked streaming
implementation is equivalent to the byte-for-byte whole-file MD5. -/
theorem claim_C1_md5_streaming_eq_whole_file :
    (∀ (fileBytes : List Nat) (chunkSize : Nat), 0 < chunkSize →
      md5_file chunkSize fileBytes = md5Bytes fileBytes)
    ∧ (∀ (fs : FS) (df : Df) (path : String) (meta : DatasetInfo) (now : String)
        (d1 d2 d3 : Bool) (ex : Option (List (String × String))) (b : List Nat),
        fileAt fs path = some (.bytes b) →
        manifestHashAt (write_metadata_from_df fs df path meta now d1 d2 d3 ex).1
            (path ++ ".manifest.json") = some (md5Bytes b)) := by
  constructor
  · intro b cs hcs
    exact md5_file_eq_md5Bytes cs hcs b
  · intro fs df path meta now d1 d2 d3 ex b hb
    rw [write_metadata_from_df]
    simp only [hb]
    rw [manifestHashAt, fileAt_writeFile]
    simp only [fileDataBytes]
    rw [md5_file_eq_md5Bytes 1048576 (by decide) b]

/-- Witness for C1 at a concrete file and chunk size. -/
theorem claim_C1_witness :
    (0 < 2 ∧ md5_file 2 [97, 98, 99] = md5Bytes [97, 98, 99])
    ∧ manifestHashAt
        (write_metadata_from_df [("p", .bytes [97, 98, 99])] [] "p" {} "t"
          true true false none).1 ("p" ++ ".manifest.json")
      = some (md5Bytes [97, 98, 99]) :=
  ⟨⟨by decide, claim_C1_md5_streaming_eq_whole_file.1 [97, 98, 99] 2 (by decide)⟩,
    claim_C1_md5_streaming_eq_whole_file.2 [("p", .bytes [97, 98, 99])] [] "p" {} "t"
      true true false none [97, 98, 99] rfl⟩

/-- Claim C2: casting a column with `to_int` yields a nullable 64-bit
integer column whose every value is null or an integer; values that fail
to parse never raise and become null; e.g. `["12", "abc", "", "7"]` gives
`[12, null, null, 7]`. -/
theorem claim_C2_to_int_nullable_integers :
    (∀ (c c2 : Col), to_int c = .ok c2 →
      c2.dtype = .int64N ∧ ∀ v ∈ c2.vals, v = .null ∨ ∃ i : Int, v = .int i)
    ∧ (∀ c : Col,
        c.vals.all (fun v => (parseVal v).all (fun q => q.k = 0)) = true →
        to_int c = .ok ⟨.int64N,
          c.vals.map (fun v => (parseVal v).elim Val.null (fun q => Val.int q.m))⟩)
    ∧ to_int ⟨.object, [.str "12", .str "abc", .str "", .str "7"]⟩
        = .ok ⟨.int64N, [.int 12, .null, .null, .int 7]⟩ :=
  ⟨to_int_ok_shape, to_int_eq_of_intlike, by decide⟩

/-- Witness for C2 at the spec's example column. -/
theorem claim_C2_witness :
    to_int ⟨.object, [.str "12", .str "abc", .str "", .str "7"]⟩
      = .ok ⟨.int64N,
        ([.str "12", .str "abc", .str "", .str "7"] : List Val).map
          (fun v => (parseVal v).elim Val.null (fun q => Val.int q.m))⟩ :=
  claim_C2_to_int_nullable_integers.2.1
    ⟨.object, [.str "12", .str "abc", .str "", .str "7"]⟩ (by decide)

/-- Claim C3: `to_float_pt` passes already-numeric columns through as
floating point; otherwise it removes every `.`, replaces every `,` by
`.`, and numeric-parses, nulling unparsable values; e.g. `"1.234,56"`
gives `1234.56`, `"10,5"` gives `10.5`, non-numeric strings give null. -/
theorem claim_C3_to_float_pt_locale_decimals :
    (∀ c : Col, isNumericDtype c.dtype = true →
      to_float_pt c = ⟨.float64, c.vals.map (fun v => (parseVal v).elim Val.null Val.flt)⟩)
    ∧ (∀ c : Col, isNumericDtype c.dtype = false →
      to_float_pt c = ⟨.float64, c.vals.map (fun v =>
        (parseNumeric (pyReplace (pyReplace (valToStr v) "." "") "," ".")).elim
          Val.null Val.flt)⟩)
    ∧ to_float_pt ⟨.object, [.str "1.234,56", .str "10,5", .str "abc"]⟩
        = ⟨.float64, [.flt ⟨123456, 2⟩, .flt ⟨105, 1⟩, .null]⟩ :=
  ⟨to_float_pt_numeric, to_float_pt_object, by decide⟩

/-- Witness for C3 at the spec's example column. -/
theorem claim_C3_witness :
    to_float_pt ⟨.object, [.str "1.234,56", .str "10,5", .str "abc"]⟩
      = ⟨.float64,
        ([.str "1.234,56", .str "10,5", .str "abc"] : List Val).map (fun v =>
          (parseNumeric (pyReplace (pyReplace (valToStr v) "." "") "," ".")).elim
            Val.null Val.flt)⟩ :=
  claim_C3_to_float_pt_locale_decimals.2.1
    ⟨.object, [.str "1.234,56", .str "10,5", .str "abc"]⟩ rfl

/-- Claim C4: `to_str` converts each value to text, strips surrounding
whitespace, and removes at most one leading and at most one trailing
double quote; `'  "abc"  '` gives `abc` and an unquoted `xyz` is
unchanged. -/
theorem claim_C4_to_str_strip_and_unquote :
    (∀ c : Col, to_str c = ⟨.object,
      c.vals.map (fun v => Val.str (subAnchoredQuotes (pyStrip (valToStr v))))⟩)
    ∧ (∀ s : String, subAnchoredQuotes ("\"" ++ s ++ "\"") = s)
    ∧ (∀ cs : List Char, cs.head? ≠ some '"' → cs.getLast? ≠ some '"' →
        subAnchoredQuotesL cs = cs)
    ∧ to_str ⟨.object, [.str "  \"abc\"  ", .str "xyz"]⟩
        = ⟨.object, [.str "abc", .str "xyz"]⟩ :=
  ⟨to_str_eq, subAnchoredQuotes_wrap, subAnchoredQuotesL_id, by decide⟩

/-- Witness for C4: a string with no surrounding quotes is unchanged. -/
theorem claim_C4_witness :
    subAnchoredQuotesL ['x', 'y', 'z'] = ['x', 'y', 'z'] :=
  claim_C4_to_str_strip_and_unquote.2.2.1 ['x', 'y', 'z'] (by decide) (by decide)

/-- Claim C5: `check_dtypes` raises a `SchemaError` if and only if some
declared column present in the dataset has a post-cast dtype not matching
its category; the single message contains a
`"<col> esperado <expected>, encontrado <actual>"` entry for every
mismatched column (never only the first), joined by `"; "`; declared
columns absent from the dataset are silently skipped. -/
theorem claim_C5_check_dtypes_aggregates_all_mismatches :
    (∀ (df : Df) (i s f : List String),
      (∃ e, check_dtypes df i s f = .error e) ↔
        ∃ c expd act, MismatchedAs df i s f c expd act)
    ∧ (∀ (df : Df) (i s f : List String) (msg : String),
        check_dtypes df i s f = .error (.schemaError msg) →
        ∀ c expd act, MismatchedAs df i s f c expd act →
          ∃ pre post, msg = pre ++ mismatchEntry (c, expd, act) ++ post)
    ∧ (∀ (df : Df) (i s f : List String) (c expd act : String),
        MismatchedAs df i s f c expd act → hasCol df c = true)
    ∧ (∀ (df : Df) (i s f : List String),
        (∀ c ∈ i ++ s ++ f, hasCol df c = false) → check_dtypes df i s f = .ok ())
    ∧ check_dtypes [("x", ⟨.object, []⟩), ("y", ⟨.int64N, []⟩)] ["x"] ["y"] []
        = .error (.schemaError ("Tipos incorretos após cast: "
            ++ "x esperado Int64, encontrado object; "
            ++ "y esperado string(object), encontrado Int64")) := by
  refine ⟨?_, ?_, ?_, ?_, by decide⟩
  · intro df i s f
    constructor
    · rintro ⟨e, he⟩
      rw [check_dtypes] at he
      by_cases hw : (wrongList df i s f).isEmpty = true
      · rw [if_pos hw] at he
        exact absurd he (by simp)
      · have hne : wrongList df i s f ≠ [] := by
          simpa [List.isEmpty_iff] using hw
        obtain ⟨⟨c, expd, act⟩, hm⟩ := List.exists_mem_of_ne_nil _ hne
        exact ⟨c, expd, act, (mem_wrongList_iff df i s f c expd act).mp hm⟩
    · rintro ⟨c, expd, act, hmis⟩
      have hm := (mem_wrongList_iff df i s f c expd act).mpr hmis
      refine ⟨.schemaError ("Tipos incorretos após cast: "
        ++ joinSep "; " ((wrongList df i s f).map mismatchEntry)), ?_⟩
      rw [check_dtypes,
        if_neg (by simp [List.isEmpty_iff, List.ne_nil_of_mem hm])]
  · intro df i s f msg hmsg c expd act hmis
    have hm := (mem_wrongList_iff df i s f c expd act).mpr hmis
    rw [check_dtypes] at hmsg
    by_cases hw : (wrongList df i s f).isEmpty = true
    · rw [if_pos hw] at hmsg
      exact absurd hmsg (by simp)
    · rw [if_neg hw] at hmsg
      simp only [Except.error.injEq, PyErr.schemaError.injEq] at hmsg
      obtain ⟨pre, post, hj⟩ := joinSep_mem_infix "; "
        ((wrongList df i s f).map mismatchEntry) (mismatchEntry (c, expd, act))
        (List.mem_map_of_mem mismatchEntry hm)
      refine ⟨"Tipos incorretos após cast: " ++ pre, post, ?_⟩
      rw [← hmsg, hj]
      simp [String.append_assoc]
  · intro df i s f c expd act hmis
    rcases hmis with ⟨_, _, col, hcol, _, _⟩ | ⟨_, _, col, hcol, _, _⟩ |
      ⟨_, _, col, hcol, _, _⟩ <;> exact hasCol_of_getCol df c col hcol
  · intro df i s f h
    rw [check_dtypes]
    simp only [wrongList_nil_of_absent df i s f h]
    rfl

/-- Witness for C5: a concrete error message containing both mismatches. -/
theorem claim_C5_witness :
    ∃ pre post,
      ("Tipos incorretos após cast: "
          ++ "x esperado Int64, encontrado object; "
          ++ "y esperado string(object), encontrado Int64")
        = pre ++ mismatchEntry ("y", "string(object)", "Int64") ++ post :=
  claim_C5_check_dtypes_aggregates_all_mismatches.2.1
    [("x", ⟨.object, []⟩), ("y", ⟨.int64N, []⟩)] ["x"] ["y"] [] _
    claim_C5_check_dtypes_aggregates_all_mismatches.2.2.2.2
    "y" "string(object)" "Int64"
    (Or.inr (Or.inl ⟨by decide, rfl, ⟨.int64N, []⟩, by decide, rfl, by decide⟩))

/-- Claim C6: `ensure_required_columns` raises a `SchemaError` if and only
if some required column is absent, and the error lists exactly the list of
all missing column names; e.g. required `["a","b","c"]` against columns
`["a","c"]` fails listing exactly `["b"]`. -/
theorem claim_C6_ensure_required_columns_lists_all_missing :
    (∀ (df : Df) (req : List String),
      (∃ e, ensure_required_columns df req = .error e) ↔
        ∃ c ∈ req, hasCol df c = false)
    ∧ (∀ (df : Df) (req : List String) (msg : String),
        ensure_required_columns df req = .error (.schemaError msg) →
        msg = "Colunas ausentes no DataFrame: "
          ++ pyListRepr (req.filter (fun c => ¬hasCol df c)))
    ∧ (∀ (df : Df) (req : List String),
        (∀ c ∈ req, hasCol df c = true) → ensure_required_columns df req = .ok ())
    ∧ ensure_required_columns [("a", ⟨.object, []⟩), ("c", ⟨.object, []⟩)]
        ["a", "b", "c"]
        = .error (.schemaError ("Colunas ausentes no DataFrame: " ++ pyListRepr ["b"])) := by
  refine ⟨?_, ?_, ?_, by decide⟩
  · intro df req
    constructor
    · rintro ⟨e, he⟩
      rw [ensure_required_columns] at he
      by_cases hm : (req.filter (fun c => ¬hasCol df c)).isEmpty = true
      · rw [if_pos hm] at he
        exact absurd he (by simp)
      · have hne : req.filter (fun c => ¬hasCol df c) ≠ [] := by
          simpa [List.isEmpty_iff] using hm
        obtain ⟨c, hc⟩ := List.exists_mem_of_ne_nil _ hne
        have hc2 := List.mem_filter.mp hc
        exact ⟨c, hc2.1, Bool.eq_false_iff.mpr (by simpa using hc2.2)⟩
    · rintro ⟨c, hcr, hcf⟩
      have hmem : c ∈ req.filter (fun c => ¬hasCol df c) :=
        List.mem_filter.mpr ⟨hcr, by simp [hcf]⟩
      have hne : req.filter (fun c => ¬hasCol df c) ≠ [] :=
        List.ne_nil_of_mem hmem
      have hni : ¬((req.filter (fun c => ¬hasCol df c)).isEmpty = true) := by
        simp only [List.isEmpty_iff]
        exact hne
      exact ⟨.schemaError ("Colunas ausentes no DataFrame: "
        ++ pyListRepr (req.filter (fun c => ¬hasCol df c))), by
          rw [ensure_required_columns, if_neg hni]⟩
  · intro df req msg hmsg
    rw [ensure_required_columns] at hmsg
    by_cases hm : (req.filter (fun c => ¬hasCol df c)).isEmpty = true
    · rw [if_pos hm] at hmsg
      exact absurd hmsg (by simp)
    · rw [if_neg hm] at hmsg
      simp only [Except.error.injEq, PyErr.schemaError.injEq] at hmsg
      exact hmsg.symm
  · intro df req h
    rw [ensure_required_columns,
      if_pos (by
        simp only [List.isEmpty_iff]
        exact List.filter_eq_nil_iff.mpr (fun c hc => by simp [h c hc]))]

/-- Witness for C6 at the spec's example. -/
theorem claim_C6_witness :
    ∃ e, ensure_required_columns [("a", ⟨.object, []⟩), ("c", ⟨.object, []⟩)]
      ["a", "b", "c"] = .error e :=
  (claim_C6_ensure_required_columns_lists_all_missing.1
    [("a", ⟨.object, []⟩), ("c", ⟨.object, []⟩)] ["a", "b", "c"]).mpr
    ⟨"b", by decide, by decide⟩

/-- Claim C7: for every path that does not exist on disk, both manifest
entry points fail with the not-found error and write nothing: the
filesystem they return is the input filesystem, untouched, with no
manifest file created. -/
theorem claim_C7_manifest_requires_existing_file :
    ∀ (fs : FS) (path : String), pathExists fs path = false →
      (∀ (df : Df) (meta : DatasetInfo) (now : String) (d1 d2 d3 : Bool)
          (ex : Option (List (String × String))),
        write_metadata_from_df fs df path meta now d1 d2 d3 ex =
          (fs, .error (.fileNotFound ("Arquivo não encontrado para manifest: " ++ path))))
      ∧ (∀ (meta : DatasetInfo) (now : String) (hdr inf lc : Bool)
          (ex : Option (List (String × String))),
        write_manifest_from_file fs path meta now hdr inf lc ex =
          (fs, .error (.fileNotFound ("Arquivo não encontrado para manifest: " ++ path)))) := by
  intro fs path h
  have hnone : fileAt fs path = none := by
    rw [pathExists] at h
    exact Option.not_isSome_iff_eq_none.mp (by simp [h])
  constructor
  · intro df meta now d1 d2 d3 ex
    simp only [write_metadata_from_df, hnone]
  · intro meta now hdr inf lc ex
    simp only [write_manifest_from_file, hnone]

/-- Witness for C7 on an empty filesystem. -/
theorem claim_C7_witness :
    write_metadata_from_df [] [] "missing.txt" {} "t" true true false none
      = ([], .error (.fileNotFound ("Arquivo não encontrado para manifest: " ++ "missing.txt")))
    ∧ write_manifest_from_file [] "missing.txt" {} "t" true true true none
      = ([], .error (.fileNotFound ("Arquivo não encontrado para manifest: " ++ "missing.txt"))) :=
  ⟨(claim_C7_manifest_requires_existing_file [] "missing.txt" rfl).1 [] {} "t" true true false none,
    (claim_C7_manifest_requires_existing_file [] "missing.txt" rfl).2 {} "t" true true true none⟩

/-- Counterexample to claim C8 as stated: `apply_casts` assigns the cast
columns on the DataFrame object it was handed, so the caller's input is
NOT left unchanged — after the call the heap cell holds the cast dataset,
not the original; and the integer cast of a value that parses to a
non-integral number (`"1.5"`) raises a `TypeError`, so the cast is not
error-free either. -/
theorem claim_C8_counterexample :
    (apply_casts [[("x", ⟨Dtype.object, [Val.str "12", Val.str "abc"]⟩)]] 0 ["x"] [] []).1
        ≠ [[("x", ⟨Dtype.object, [Val.str "12", Val.str "abc"]⟩)]]
    ∧ (apply_casts [[("x", ⟨Dtype.object, [Val.str "1.5"]⟩)]] 0 ["x"] [] []).2
        = .error (.typeError "cannot safely cast non-equivalent float64 to int64") := by
  decide

/-- Claim C8 as amended: `apply_casts` mutates the caller's DataFrame in
place — after the call the caller's heap cell holds the dataset with the
declared casts applied (integer, then string, then float fields), and on
success the returned value is the caller's own reference; unparsable
values are silently nulled inside `to_int`, but an integer-declared
column containing a parsable non-integral value makes the cast raise. -/
theorem claim_C8_amended_apply_casts_mutates_in_place :
    ∀ (heap : List Df) (ref : Nat) (df : Df) (i s f : List String),
      heap[ref]? = some df →
      (apply_casts heap ref i s f).1 = heap.set ref (applyCastsDf df i s f).1
      ∧ (apply_casts heap ref i s f).1[ref]? = some (applyCastsDf df i s f).1
      ∧ (∀ r, (apply_casts heap ref i s f).2 = .ok r → r = ref)
      ∧ ((apply_casts heap ref i s f).2 = .ok ref ↔ (applyCastsDf df i s f).2 = .ok ()) := by
  intro heap ref df i s f h
  have hlt : ref < heap.length := by
    by_contra hge
    rw [List.getElem?_eq_none (Nat.le_of_not_lt hge)] at h
    exact absurd h (by simp)
  simp only [apply_casts, h]
  cases hac : applyCastsDf df i s f with
  | mk df2 res =>
    cases res with
    | error e =>
      refine ⟨rfl, ?_, ?_, ?_⟩
      · simp [List.getElem?_set_self hlt]
      · intro r hr
        exact absurd hr (by simp)
      · simp
    | ok u =>
      cases u
      refine ⟨rfl, ?_, ?_, ?_⟩
      · simp [List.getElem?_set_self hlt]
      · intro r hr
        simpa using hr.symm
      · simp

/-- Witness for the amended C8 at a concrete heap. -/
theorem claim_C8_witness :
    (apply_casts [[("x", ⟨Dtype.object, [Val.str "12", Val.str "abc"]⟩)]] 0 ["x"] [] []).1
      = [[("x", ⟨Dtype.object, [Val.str "12", Val.str "abc"]⟩)]].set 0
          (applyCastsDf [("x", ⟨Dtype.object, [Val.str "12", Val.str "abc"]⟩)] ["x"] [] []).1 :=
  (claim_C8_amended_apply_casts_mutates_in_place
    [[("x", ⟨Dtype.object, [Val.str "12", Val.str "abc"]⟩)]] 0
    [("x", ⟨Dtype.object, [Val.str "12", Val.str "abc"]⟩)] ["x"] [] [] rfl).1

/-- Claim C9: with line counting enabled, `write_manifest_from_file`
reports `schema_stats.linhas` equal to the streaming byte-wise newline
count of the file (a trailing fragment with no final newline counts as a
line), decremented by one when `header` is set and the file has at least
one line. -/
theorem claim_C9_row_count_from_newline_streaming :
    ∀ (fs : FS) (path : String) (meta : DatasetInfo) (now : String)
      (hdr inf : Bool) (ex : Option (List (String × String))) (b : List Nat),
      fileAt fs path = some (.bytes b) →
      (countFileLines b =
        b.count 10 + (if b ≠ [] ∧ b.getLast? ≠ some 10 then 1 else 0))
      ∧ (hdr = true → 0 < countFileLines b →
          manifestLinhasAt (write_manifest_from_file fs path meta now hdr inf true ex).1
              (path ++ ".manifest.json")
            = some (some ((countFileLines b : Int) - 1)))
      ∧ (hdr = false →
          manifestLinhasAt (write_manifest_from_file fs path meta now hdr inf true ex).1
              (path ++ ".manifest.json")
            = some (some (countFileLines b : Int))) := by
  intro fs path meta now hdr inf ex b hb
  refine ⟨countFileLines_eq_spec b, ?_, ?_⟩
  · intro hh hpos
    subst hh
    simp only [write_manifest_from_file, hb, manifestLinhasAt, fileAt_writeFile,
      fileDataBytes]
    rw [if_pos (by simp), if_pos ⟨trivial, Nat.pos_iff_ne_zero.mp hpos, hpos⟩]
  · intro hh
    subst hh
    simp only [write_manifest_from_file, hb, manifestLinhasAt, fileAt_writeFile,
      fileDataBytes]
    rw [if_pos (by simp), if_neg (by simp)]

/-- Witness for C9 at a two-line file whose last line has no trailing
newline. -/
theorem claim_C9_witness :
    manifestLinhasAt
        (write_manifest_from_file [("f", .bytes [97, 10, 98])] "f" {} "t"
          true true true none).1 ("f" ++ ".manifest.json")
      = some (some ((countFileLines [97, 10, 98] : Int) - 1)) :=
  (claim_C9_row_count_from_newline_streaming [("f", .bytes [97, 10, 98])] "f" {} "t"
    true true none [97, 10, 98] rfl).2.1 rfl (by decide)

/-- Claim C10 (implicit): with `header` set and line counting enabled,
`write_manifest_from_file` never reports a negative row count — the
header decrement is applied only when the raw line count is strictly
positive, so a zero-byte file reports `linhas = 0`, not `-1`. -/
theorem claim_C10_row_count_never_negative :
    ∀ (fs : FS) (path : String) (meta : DatasetInfo) (now : String) (inf : Bool)
      (ex : Option (List (String × String))) (b : List Nat),
      fileAt fs path = some (.bytes b) →
      (∀ r : Int,
        manifestLinhasAt (write_manifest_from_file fs path meta now true inf true ex).1
            (path ++ ".manifest.json") = some (some r) → 0 ≤ r)
      ∧ (b = [] →
        manifestLinhasAt (write_manifest_from_file fs path meta now true inf true ex).1
            (path ++ ".manifest.json") = some (some 0)) := by
  intro fs path meta now inf ex b hb
  have hcompute :
      manifestLinhasAt (write_manifest_from_file fs path meta now true inf true ex).1
          (path ++ ".manifest.json")
        = some (some (if (true : Bool) ∧ countFileLines b ≠ 0 ∧ 0 < countFileLines b
            then (countFileLines b : Int) - 1 else (countFileLines b : Int))) := by
    simp only [write_manifest_from_file, hb, manifestLinhasAt, fileAt_writeFile,
      fileDataBytes]
    rw [if_pos (by simp)]
  constructor
  · intro r hr
    rw [hcompute] at hr
    simp only [Option.some.injEq] at hr
    by_cases hz : countFileLines b = 0
    · rw [if_neg (fun hc => hc.2.1 hz)] at hr
      omega
    · rw [if_pos ⟨trivial, hz, Nat.pos_of_ne_zero hz⟩] at hr
      have : 1 ≤ countFileLines b := Nat.one_le_iff_ne_zero.mpr hz
      omega
  · intro hbe
    subst hbe
    rw [hcompute]
    rfl

/-- Witness for C10 at a zero-byte file. -/
theorem claim_C10_witness :
    manifestLinhasAt
        (write_manifest_from_file [("f", .bytes [])] "f" {} "t" true true true none).1
        ("f" ++ ".manifest.json")
      = some (some 0) :=
  (claim_C10_row_count_never_negative [("f", .bytes [])] "f" {} "t" true none [] rfl).2 rfl

end DataIngest

